import Mathlib

/-!
Verification of the FedNoiseBilbao scripts (`sonometers.py`, `sonometers_data.py`).

The scripts are shallowly embedded: the paginated, retrying bulk-download routine
`obtener_datos_sonometros_bilbao` becomes a pure function over an abstract HTTP
client (a function from request parameters and attempt index to an outcome),
producing the accumulated table together with a trace of observable events
(requests issued, sleeps, file writes).  The weekday-annotation helper
`agregar_dia_semana_numerico` is embedded over a small data-frame model whose
timestamp cells mirror pandas datetime cells (`NaT`, naive, timezone-aware).
-/

namespace Sonometers

/-- Query parameters of one page request, as built at
`sonometers_data.py` lines 31-36 (`desde`, `hasta`, `pagina`, `items`). -/
structure Params where
  desde : String
  hasta : String
  pagina : Nat
  items : Nat
deriving DecidableEq, Repr

/-- An HTTP response.  `content` is the body's lines, i.e. the result of
Python's `content.strip().split('\n')` at line 68 (the embedding works with the
line list directly; an empty body corresponds to `[""]` or `[]`, both of length
`≤ 1`). -/
structure Response where
  status : Nat
  content : List String
deriving DecidableEq, Repr

/-- Outcome of one `requests.get` call: either a connection-level/timeout
exception (line 52) or a response. -/
inductive FetchResult where
  | connError
  | ok (resp : Response)
deriving DecidableEq, Repr

/-- An abstract HTTP client: request parameters and 0-based attempt index
(the value of `retry_count` when the request is issued) to outcome. -/
abbrev Client := Params → Nat → FetchResult

/-- Splitting a character list at every occurrence of a separator character;
the executable core of Python's `str.split(sep)` for a one-character `sep`. -/
def splitOnChar (c : Char) : List Char → List (List Char)
  | [] => [[]]
  | x :: xs =>
    if x = c then [] :: splitOnChar c xs
    else
      match splitOnChar c xs with
      | [] => [[x]]
      | h :: t => (x :: h) :: t

/-- Python's `s.split(sep)` for a one-character separator. -/
def splitSep (c : Char) (s : String) : List String :=
  (splitOnChar c s.data).map fun cs => String.mk cs

/-- The numeric value of a decimal digit character. -/
def digitVal (c : Char) : Option Nat :=
  if '0' ≤ c ∧ c ≤ '9' then some (c.toNat - '0'.toNat) else none

/-- Fold a digit string into a number, failing on any non-digit. -/
def digitsToNat : List Char → Option Nat → Option Nat
  | [], acc => acc
  | c :: cs, acc =>
    match digitVal c, acc with
    | some d, some n => digitsToNat cs (some (n * 10 + d))
    | _, _ => none

/-- Parse a non-empty all-digit string as a natural number (as `int(s)` /
`str.isdigit` semantics for plain decimal strings). -/
def strToNat? (s : String) : Option Nat :=
  match s.data with
  | [] => none
  | l => digitsToNat l (some 0)

/-- A parsed page, as produced by `pd.read_csv(StringIO(content), sep=';')`
at line 73: first line is the header, remaining non-blank lines are data rows,
each split on `';'` (pandas skips blank lines by default). -/
structure Page where
  header : List String
  rows : List (List String)
deriving DecidableEq, Repr

/-- The accumulated result table (`complete_data`). -/
structure Table where
  header : List String
  rows : List (List String)
deriving DecidableEq, Repr

/-- `pd.read_csv(..., sep=';')` on the body's lines. -/
def parseCsv (lines : List String) : Page :=
  match lines with
  | [] => { header := [], rows := [] }
  | h :: rest =>
    { header := splitSep ';' h,
      rows := (rest.filter (· != "")).map (fun l => splitSep ';' l) }

/-- `complete_data = pd.DataFrame()` (line 28): the empty frame, no columns. -/
def Table.initial : Table := { header := [], rows := [] }

/-- `pd.concat([complete_data, df_page], ignore_index=True)` (line 80), under
the assumption (true for this feed) that all pages share one column set:
concatenating the initial empty frame with a page yields the page; otherwise
rows are appended. -/
def Table.concat (t : Table) (p : Page) : Table :=
  if t.header.isEmpty && t.rows.isEmpty then { header := p.header, rows := p.rows }
  else { header := t.header, rows := t.rows ++ p.rows }

/-- Observable side effects of a run: HTTP requests issued (with the
`retry_count` in force), `time.sleep` calls, and CSV file writes
(`to_csv(output_file, index=False)` carries the full table, header and all
rows, no index column). -/
inductive Event where
  | request (p : Params) (retryCount : Nat)
  | sleep (secs : Nat)
  | write (file : String) (t : Table)
deriving DecidableEq, Repr

/-- `max_retries = 5` (line 43). -/
def maxRetries : Nat := 5

/-- `items_per_page = 1000` (line 27). -/
def itemsPerPage : Nat := 1000

/-- How the inner retry loop (lines 47-63) ends. -/
inductive RetryOutcome where
  /-- `requests.get` returned a response (`success = True`, line 51). -/
  | got (resp : Response)
  /-- `retry_count` reached `max_retries`: `return complete_data` (lines 58-60),
  leaving the whole function without reaching the file write. -/
  | earlyReturn
  /-- the `while` condition failed with `success == False` (lines 62-63:
  `break`, falling through to the file-write block); unreachable in practice
  since the loop starts at `retry_count = 0 < max_retries`. -/
  | breakOut
deriving DecidableEq, Repr

/-- The inner retry loop, lines 47-60.  `left` is the number of loop iterations
still permitted (`max_retries - retry_count` on entry), `retryCount` the current
value of `retry_count`.  On a connection error the wait before retry number
`retry_count + 1` is `5 * (retry_count + 1)` seconds (line 55). -/
def retryLoop (client : Client) (p : Params) : Nat → Nat → List Event × RetryOutcome
  | 0, _ => ([], .breakOut)
  | left + 1, retryCount =>
    match client p retryCount with
    | .ok resp => ([.request p retryCount], .got resp)
    | .connError =>
      if retryCount + 1 < maxRetries then
        let rest := retryLoop client p left (retryCount + 1)
        (.request p retryCount :: .sleep (5 * (retryCount + 1)) :: rest.1, rest.2)
      else
        ([.request p retryCount], .earlyReturn)

/-- Lines 92-96: after the page loop, write the CSV exactly when the
accumulated table is non-empty (`to_csv(output_file, index=False)`). -/
def finishEvents (acc : Table) (outputFile : String) : List Event :=
  if acc.rows.isEmpty then [] else [.write outputFile acc]

/-- The page loop of `obtener_datos_sonometros_bilbao` (lines 30-98), with
`fuel` bounding the number of iterations (the Python loop is unbounded).
Returns `none` when `fuel` runs out, otherwise the returned table together
with the event trace. -/
def fetchLoop (client : Client) (startDate endDate outputFile : String) :
    Nat → Nat → Table → Option (Table × List Event)
  | 0, _, _ => none
  | fuel + 1, page, acc =>
    let params : Params := ⟨startDate, endDate, page, itemsPerPage⟩
    match retryLoop client params maxRetries 0 with
    | (evs, .earlyReturn) => some (acc, evs)
    | (evs, .breakOut) => some (acc, evs ++ finishEvents acc outputFile)
    | (evs, .got resp) =>
      if resp.status = 200 then
        if resp.content.length ≤ 1 then
          some (acc, evs ++ finishEvents acc outputFile)
        else
          let df_page := parseCsv resp.content
          if df_page.rows.isEmpty then
            some (acc, evs ++ finishEvents acc outputFile)
          else
            let acc2 := acc.concat df_page
            if df_page.rows.length < itemsPerPage then
              some (acc2, evs ++ finishEvents acc2 outputFile)
            else
              match fetchLoop client startDate endDate outputFile fuel (page + 1) acc2 with
              | none => none
              | some (t, evs2) => some (t, evs ++ Event.sleep 2 :: evs2)
      else
        some (acc, evs ++ finishEvents acc outputFile)

/-- `obtener_datos_sonometros_bilbao(start_date, end_date, output_file)`,
starting at page 1 with the empty frame. -/
def obtener_datos_sonometros_bilbao (client : Client)
    (startDate endDate outputFile : String) (fuel : Nat) :
    Option (Table × List Event) :=
  fetchLoop client startDate endDate outputFile fuel 1 Table.initial

/-- Is an event a file write? -/
def Event.isWrite : Event → Bool
  | .write _ _ => true
  | _ => false

/-- Is an event an HTTP request? -/
def Event.isRequest : Event → Bool
  | .request _ _ => true
  | _ => false

/-- The file writes of a trace. -/
def writesOf (evs : List Event) : List Event := evs.filter Event.isWrite

/-- The HTTP requests of a trace. -/
def requestsOf (evs : List Event) : List Event := evs.filter Event.isRequest

/-- The sleep durations of a trace, in order. -/
def sleepsOf (evs : List Event) : List Nat :=
  evs.filterMap fun e => match e with | .sleep s => some s | _ => none

/-- The page number of a request event, if any. -/
def Event.pageOf : Event → Option Nat
  | .request p _ => some p.pagina
  | _ => none

/-! ### Calendar arithmetic and the weekday-annotation step

`agregar_dia_semana_numerico` (lines 100-137) relies on pandas'
`to_datetime(..., errors='coerce')`, `dt.tz_localize` and `dt.weekday`.
These library operations are modelled below over a small timestamp type;
`dt.weekday` follows the proleptic Gregorian calendar with Monday = 0. -/

/-- Gregorian leap year. -/
def isLeapYear (y : Nat) : Bool :=
  (y % 4 == 0 && y % 100 != 0) || y % 400 == 0

/-- Days in a month of the Gregorian calendar (`m` between 1 and 12). -/
def daysInMonth (y m : Nat) : Nat :=
  if m == 2 then (if isLeapYear y then 29 else 28)
  else if m == 4 || m == 6 || m == 9 || m == 11 then 30
  else 31

/-- Rata die day number of a proleptic Gregorian date: day 1 is 0001-01-01
(a Monday). -/
def rataDie (y m d : Nat) : Nat :=
  365 * (y - 1) + (y - 1) / 4 - (y - 1) / 100 + (y - 1) / 400
    + (367 * m - 362) / 12 + d
    - (if m ≤ 2 then 0 else if isLeapYear y then 1 else 2)

/-- Weekday of a Gregorian date with Monday = 0 … Sunday = 6, as pandas'
`Timestamp.weekday` computes it. -/
def weekdayOfDate (y m d : Nat) : Nat := (rataDie y m d + 6) % 7

/-- A naive wall-clock timestamp. -/
structure Timestamp where
  year : Nat
  month : Nat
  day : Nat
  hour : Nat
  minute : Nat
  second : Nat
deriving DecidableEq, Repr

/-- Parse `"YYYY-MM-DD"` into a calendar-valid date. -/
def parseDate (s : String) : Option (Nat × Nat × Nat) :=
  match splitSep '-' s with
  | [ys, ms, ds] => do
    let y ← strToNat? ys
    let m ← strToNat? ms
    let d ← strToNat? ds
    if 1 ≤ m && m ≤ 12 && 1 ≤ d && d ≤ daysInMonth y m then some (y, m, d) else none
  | _ => none

/-- Parse `"HH:MM:SS"` into a valid time of day. -/
def parseTime (s : String) : Option (Nat × Nat × Nat) :=
  match splitSep ':' s with
  | [hs, ms, ss] => do
    let h ← strToNat? hs
    let mi ← strToNat? ms
    let se ← strToNat? ss
    if h ≤ 23 && mi ≤ 59 && se ≤ 59 then some (h, mi, se) else none
  | _ => none

/-- `pd.to_datetime` on one string value, for the ISO-like shapes this feed
produces (`YYYY-MM-DD`, optionally followed by `T` or a space and `HH:MM:SS`);
anything else is unparseable and, under `errors='coerce'`, becomes `NaT`. -/
def parseTimestamp (s : String) : Option Timestamp :=
  let parts := if (splitSep 'T' s).length == 2 then splitSep 'T' s else splitSep ' ' s
  match parts with
  | [d] => (parseDate d).map fun x => ⟨x.1, x.2.1, x.2.2, 0, 0, 0⟩
  | [d, t] => do
    let x ← parseDate d
    let u ← parseTime t
    pure ⟨x.1, x.2.1, x.2.2, u.1, u.2.1, u.2.2⟩
  | _ => none

/-- A pandas datetime cell: `NaT`, a timezone-naive timestamp, or a
timezone-aware one (wall time plus zone label). -/
inductive DtCell where
  | NaT
  | naive (t : Timestamp)
  | aware (t : Timestamp) (tz : String)
deriving DecidableEq, Repr

/-- A data-frame cell: a raw string value, a datetime value, or a
nullable number (the `week_day` column; `none` is pandas' `NaN`). -/
inductive Cell where
  | str (s : String)
  | dt (d : DtCell)
  | num (n : Option Nat)
deriving DecidableEq, Repr

/-- The day of the last Sunday of month `m` of year `y`. -/
def lastSundayOfMonth (y m : Nat) : Nat :=
  let n := daysInMonth y m
  n - (weekdayOfDate y m n + 1) % 7

/-- Nonexistent wall times in `Europe/Madrid` (current EU rules, as pytz
applies them to modern dates): the spring-forward gap 02:00-02:59:59 on the
last Sunday of March. -/
def isNonexistentMadrid (t : Timestamp) : Bool :=
  t.month == 3 && t.day == lastSundayOfMonth t.year 3 && t.hour == 2

/-- Ambiguous wall times in `Europe/Madrid` (current EU rules): the repeated
hour 02:00-02:59:59 on the last Sunday of October. -/
def isAmbiguousMadrid (t : Timestamp) : Bool :=
  t.month == 10 && t.day == lastSundayOfMonth t.year 10 && t.hour == 2

/-- `pytz.timezone('Europe/Madrid')` (line 125). -/
def bilbao_tz : String := "Europe/Madrid"

/-- `pd.to_datetime(cell, errors='coerce')` on one cell (line 123):
unparseable values become `NaT`, never an exception. -/
def to_datetime_cell : Cell → DtCell
  | .str s => match parseTimestamp s with
    | some t => .naive t
    | none => .NaT
  | .dt d => d
  | .num _ => .NaT

/-- `.dt.tz_localize(bilbao_tz, ambiguous='NaT', nonexistent='NaT')` on one
cell (line 128): ambiguous or nonexistent wall times become `NaT` instead of
being resolved to a guessed offset; other times become timezone-aware with the
wall time unchanged. -/
def tz_localize_cell (tz : String) : DtCell → DtCell
  | .NaT => .NaT
  | .naive t =>
    if isNonexistentMadrid t || isAmbiguousMadrid t then .NaT else .aware t tz
  | .aware t z => .aware t z

/-- `.dt.weekday` on one cell (line 131): `NaT` gives `NaN`, otherwise the
weekday number of the wall-clock date, Monday = 0 … Sunday = 6. -/
def weekday_cell : DtCell → Option Nat
  | .NaT => none
  | .naive t => some (weekdayOfDate t.year t.month t.day)
  | .aware t _ => some (weekdayOfDate t.year t.month t.day)

/-- `.dt.tz_localize(None)` on one cell (line 135): drop the timezone, keeping
the wall time. -/
def tz_strip_cell : DtCell → DtCell
  | .aware t _ => .naive t
  | c => c

/-- Is a datetime cell timezone-aware? -/
def DtCell.isAware : DtCell → Bool
  | .aware _ _ => true
  | _ => false

/-- A pandas data frame, modelled as its ordered list of named columns. -/
structure DataFrame where
  cols : List (String × List Cell)
deriving DecidableEq, Repr

/-- `name in df.columns`. -/
def DataFrame.hasCol (df : DataFrame) (name : String) : Bool :=
  df.cols.any (·.1 == name)

/-- `df[name]`, when the column exists. -/
def DataFrame.getCol (df : DataFrame) (name : String) : Option (List Cell) :=
  (df.cols.find? (·.1 == name)).map (·.2)

/-- `df[name] = col`: replace the column in place, or append it as a new last
column when absent. -/
def DataFrame.setCol (df : DataFrame) (name : String) (col : List Cell) : DataFrame :=
  if df.hasCol name then
    ⟨df.cols.map fun pr => if pr.1 == name then (name, col) else pr⟩
  else
    ⟨df.cols ++ [(name, col)]⟩

/-- `agregar_dia_semana_numerico(df)` (lines 100-137): find the date column
(`'Fecha/Hora medicion'`, else `'fecha_medicion'`, else return `df` unchanged
after reporting the omission); convert it with `to_datetime(errors='coerce')`,
localize to `Europe/Madrid` mapping ambiguous/nonexistent times to `NaT`,
derive `df['week_day']` from the localized column, then strip the timezone off
the date column in place. -/
def agregar_dia_semana_numerico (df : DataFrame) : DataFrame :=
  let dateColumn? : Option String :=
    if df.hasCol "Fecha/Hora medicion" then some "Fecha/Hora medicion"
    else if df.hasCol "fecha_medicion" then some "fecha_medicion"
    else none
  match dateColumn? with
  | none => df
  | some dateColumn =>
    let raw := (df.getCol dateColumn).getD []
    let parsed := raw.map to_datetime_cell
    let df1 := df.setCol dateColumn (parsed.map Cell.dt)
    let localized := parsed.map (tz_localize_cell bilbao_tz)
    let df2 := df1.setCol dateColumn (localized.map Cell.dt)
    let wd := localized.map fun c => Cell.num (weekday_cell c)
    let df3 := df2.setCol "week_day" wd
    let stripped := localized.map tz_strip_cell
    let df4 := df3.setCol dateColumn (stripped.map Cell.dt)
    df4

/-! ### The two `main` drivers -/

/-- `sonometers_data.py`, line 142: `start_date = "20250401"`. -/
def main_start_date : String := "20250401"

/-- `sonometers_data.py`, line 143: `end_date = "20250405"`. -/
def main_end_date : String := "20250405"

/-- `sonometers_data.py`, line 150: the output file name of the measurement
driver, a hard-coded literal. -/
def main_output_file : String := "bilbao_sonometers_data15.csv"

/-- The output file used by `main` of `sonometers_data.py` as a function of the
process arguments: the driver never reads `sys.argv`, so the name is the
hard-coded literal for every argument vector. -/
def sonometers_data_output_file (_argv : List String) : String :=
  main_output_file

/-- `sonometers.py`, line 81: the default station-export file name. -/
def sonometers_default_file : String := "bilbao_sonometers.csv"

/-- The output file used by `main` of `sonometers.py` (lines 81-83):
`sys.argv[1]` when present, else the default. -/
def sonometers_output_file (argv : List String) : String :=
  match argv with
  | _ :: a :: _ => a
  | _ => sonometers_default_file

/-! ### Helper lemmas about event traces -/

theorem writesOf_append (a b : List Event) :
    writesOf (a ++ b) = writesOf a ++ writesOf b :=
  List.filter_append _ _

theorem writesOf_request (p : Params) (rc : Nat) (evs : List Event) :
    writesOf (Event.request p rc :: evs) = writesOf evs := by
  simp [writesOf, Event.isWrite]

theorem writesOf_sleep (s : Nat) (evs : List Event) :
    writesOf (Event.sleep s :: evs) = writesOf evs := by
  simp [writesOf, Event.isWrite]

theorem writesOf_finishEvents (acc : Table) (f : String) :
    writesOf (finishEvents acc f) = finishEvents acc f := by
  unfold finishEvents
  split <;> simp [writesOf, Event.isWrite]

theorem retryLoop_writes (client : Client) (p : Params) :
    ∀ left rc, writesOf (retryLoop client p left rc).1 = [] := by
  intro left
  induction left with
  | zero => intro rc; simp [retryLoop, writesOf]
  | succ n ih =>
    intro rc
    rw [retryLoop]
    cases client p rc with
    | ok resp => simp [writesOf, Event.isWrite]
    | connError =>
      by_cases h : rc + 1 < maxRetries
      · simp only [h, if_true]
        rw [writesOf_request, writesOf_sleep]
        exact ih (rc + 1)
      · simp only [h, if_false]
        simp [writesOf, Event.isWrite]

theorem Table.concat_rows (t : Table) (p : Page) :
    (t.concat p).rows = t.rows ++ p.rows := by
  unfold Table.concat
  split
  · next h =>
    have : t.rows = [] := by
      rcases Bool.and_eq_true_iff.mp h with ⟨-, h2⟩
      exact List.isEmpty_iff.mp h2
    simp [this]
  · rfl

theorem parseCsv_rows_le (lines : List String) :
    (parseCsv lines).rows.length ≤ lines.length - 1 := by
  cases lines with
  | nil => simp [parseCsv]
  | cons h rest =>
    simp only [parseCsv, List.length_map, List.length_cons, Nat.add_sub_cancel]
    exact List.length_filter_le _ _

/-! ### The retry loop: exact traces -/

/-- The trace of a retry episode that fails `k` times starting at
`retry_count = r` and then succeeds: each failed attempt is followed by its
backoff sleep of `5 * (attempt + 1)` seconds. -/
def retryEvents (p : Params) : Nat → Nat → List Event
  | r, 0 => [.request p r]
  | r, k + 1 => .request p r :: .sleep (5 * (r + 1)) :: retryEvents p (r + 1) k

/-- Exact behaviour of the retry loop when the client fails `k` times and then
returns a response, with `k` small enough for the retry budget. -/
theorem retryLoop_spec (client : Client) (p : Params) (resp : Response) :
    ∀ k r left, r + k < maxRetries → k < left →
      (∀ i, r ≤ i → i < r + k → client p i = .connError) →
      client p (r + k) = .ok resp →
      retryLoop client p left r = (retryEvents p r k, .got resp) := by
  intro k
  induction k with
  | zero =>
    intro r left _ h2 _ hsucc
    match left, h2 with
    | l + 1, _ =>
      rw [retryLoop]
      rw [Nat.add_zero] at hsucc
      rw [hsucc]
      rfl
  | succ k ih =>
    intro r left h1 h2 hfail hsucc
    match left, h2 with
    | l + 1, h2 =>
      have hr : client p r = .connError := hfail r (Nat.le_refl r) (by omega)
      rw [retryLoop, hr]
      have hguard : r + 1 < maxRetries := by
        have : r + 1 ≤ r + (k + 1) := by omega
        omega
      rw [if_pos hguard]
      have hrec := ih (r + 1) l (by omega) (by omega)
        (fun i hi1 hi2 => hfail i (by omega) (by omega))
        (by rw [show r + 1 + k = r + (k + 1) from by omega]; exact hsucc)
      rw [hrec]
      rfl

/-- A `k`-failure retry episode issues exactly `k + 1` requests. -/
theorem retryEvents_requests (p : Params) :
    ∀ k r, (requestsOf (retryEvents p r k)).length = k + 1 := by
  intro k
  induction k with
  | zero => intro r; simp [retryEvents, requestsOf, Event.isRequest]
  | succ k ih =>
    intro r
    simp only [retryEvents, requestsOf, List.filter]
    simp only [Event.isRequest, List.length_cons]
    have := ih (r + 1)
    simp only [requestsOf] at this
    omega

/-- The backoff sleeps of a `k`-failure episode starting at `retry_count = r`
are `5*(r+1), 5*(r+2), …, 5*(r+k)` in order. -/
theorem retryEvents_sleeps (p : Params) :
    ∀ k r, sleepsOf (retryEvents p r k) = (List.range k).map fun i => 5 * (r + 1 + i) := by
  intro k
  induction k with
  | zero => intro r; simp [retryEvents, sleepsOf]
  | succ k ih =>
    intro r
    have hstep : sleepsOf (retryEvents p r (k + 1)) =
        5 * (r + 1) :: sleepsOf (retryEvents p (r + 1) k) := by
      simp [retryEvents, sleepsOf]
    rw [hstep, ih (r + 1), List.range_succ_eq_map, List.map_cons, List.map_map]
    refine congrArg₂ List.cons (by simp) ?_
    apply List.map_congr_left
    intro i hi
    simp only [Function.comp_apply]
    omega

/-- The backoff sleeps of a retry episode are strictly increasing. -/
theorem retryEvents_sleeps_chain (p : Params) (k r : Nat) :
    List.Chain' (· < ·) (sleepsOf (retryEvents p r k)) := by
  rw [retryEvents_sleeps]
  have hp : (List.range k).Pairwise (· < ·) := List.pairwise_lt_range k
  exact (hp.map _ (fun a b hab => by omega)).chain'

/-- The trace of five failed attempts: the retry budget is exhausted after
requests at `retry_count` 0-4 with waits 5, 10, 15, 20 between them (no wait
after the fifth failure, lines 58-60). -/
def failEvents (p : Params) : List Event :=
  [.request p 0, .sleep 5, .request p 1, .sleep 10, .request p 2, .sleep 15,
   .request p 3, .sleep 20, .request p 4]

/-- A client that fails on every attempt of a page exhausts the retry budget:
5 requests, waits 5-20, then `earlyReturn` (the `return complete_data` of
line 60). -/
theorem retryLoop_allFail (client : Client) (p : Params)
    (hfail : ∀ i, i < maxRetries → client p i = .connError) :
    retryLoop client p maxRetries 0 = (failEvents p, .earlyReturn) := by
  have h0 := hfail 0 (by norm_num [maxRetries])
  have h1 := hfail 1 (by norm_num [maxRetries])
  have h2 := hfail 2 (by norm_num [maxRetries])
  have h3 := hfail 3 (by norm_num [maxRetries])
  have h4 := hfail 4 (by norm_num [maxRetries])
  have e4 : retryLoop client p 1 4 = ([Event.request p 4], .earlyReturn) := by
    rw [retryLoop, h4, if_neg (by norm_num [maxRetries])]
  have e3 : retryLoop client p 2 3 =
      ([Event.request p 3, Event.sleep 20, Event.request p 4], .earlyReturn) := by
    rw [retryLoop, h3, if_pos (by norm_num [maxRetries])]
    norm_num [e4]
  have e2 : retryLoop client p 3 2 =
      ([Event.request p 2, Event.sleep 15, Event.request p 3, Event.sleep 20,
        Event.request p 4], .earlyReturn) := by
    rw [retryLoop, h2, if_pos (by norm_num [maxRetries])]
    norm_num [e3]
  have e1 : retryLoop client p 4 1 =
      ([Event.request p 1, Event.sleep 10, Event.request p 2, Event.sleep 15,
        Event.request p 3, Event.sleep 20, Event.request p 4], .earlyReturn) := by
    rw [retryLoop, h1, if_pos (by norm_num [maxRetries])]
    norm_num [e2]
  have e0 : retryLoop client p 5 0 = (failEvents p, .earlyReturn) := by
    rw [retryLoop, h0, if_pos (by norm_num [maxRetries])]
    norm_num [e1, failEvents]
  exact e0

/-- The first event of any run of the retry loop (with budget left) is a
request carrying exactly the parameters it was given — the date range is
forwarded as-is. -/
theorem retryLoop_head (client : Client) (p : Params) (left rc : Nat) :
    (retryLoop client p (left + 1) rc).1.head? = some (.request p rc) := by
  rw [retryLoop]
  cases client p rc with
  | ok resp => rfl
  | connError =>
    by_cases h : rc + 1 < maxRetries
    · simp only [h, if_true]; rfl
    · simp only [h, if_false]; rfl

/-! ### The page loop: file-write discipline -/

/-- Whenever the page loop returns, its trace contains either no file write at
all, or exactly one — a write of the full returned table to the requested
output file, and only when that table has rows. -/
theorem fetchLoop_writes (client : Client) (s e f : String) :
    ∀ fuel page acc t evs,
      fetchLoop client s e f fuel page acc = some (t, evs) →
      writesOf evs = [] ∨ (writesOf evs = [Event.write f t] ∧ t.rows ≠ []) := by
  intro fuel
  induction fuel with
  | zero =>
    intro page acc t evs h
    simp [fetchLoop] at h
  | succ n ih =>
    intro page acc t evs h
    simp only [fetchLoop] at h
    split at h
    case _ evs0 heq =>
      -- earlyReturn: return the accumulator, no write
      have hw0 : writesOf evs0 = [] := by
        have hh := retryLoop_writes client ⟨s, e, page, itemsPerPage⟩ maxRetries 0
        rw [heq] at hh
        exact hh
      simp only [Option.some.injEq, Prod.mk.injEq] at h
      obtain ⟨rfl, rfl⟩ := h
      exact Or.inl hw0
    case _ evs0 heq =>
      -- breakOut: fall through to the write block
      have hw0 : writesOf evs0 = [] := by
        have hh := retryLoop_writes client ⟨s, e, page, itemsPerPage⟩ maxRetries 0
        rw [heq] at hh
        exact hh
      simp only [Option.some.injEq, Prod.mk.injEq] at h
      obtain ⟨rfl, rfl⟩ := h
      rw [writesOf_append, hw0, List.nil_append, writesOf_finishEvents]
      unfold finishEvents
      split
      · exact Or.inl rfl
      · next hne =>
        exact Or.inr ⟨rfl, fun hcon => hne (by simp [hcon])⟩
    case _ evs0 resp heq =>
      have hw0 : writesOf evs0 = [] := by
        have hh := retryLoop_writes client ⟨s, e, page, itemsPerPage⟩ maxRetries 0
        rw [heq] at hh
        exact hh
      split at h
      · -- status 200
        split at h
        · -- header-only body
          simp only [Option.some.injEq, Prod.mk.injEq] at h
          obtain ⟨rfl, rfl⟩ := h
          rw [writesOf_append, hw0, List.nil_append, writesOf_finishEvents]
          unfold finishEvents
          split
          · exact Or.inl rfl
          · next hne =>
            exact Or.inr ⟨rfl, fun hcon => hne (by simp [hcon])⟩
        · split at h
          · -- parsed page has zero rows
            simp only [Option.some.injEq, Prod.mk.injEq] at h
            obtain ⟨rfl, rfl⟩ := h
            rw [writesOf_append, hw0, List.nil_append, writesOf_finishEvents]
            unfold finishEvents
            split
            · exact Or.inl rfl
            · next hne =>
              exact Or.inr ⟨rfl, fun hcon => hne (by simp [hcon])⟩
          · split at h
            · -- short page: append, then finish
              simp only [Option.some.injEq, Prod.mk.injEq] at h
              obtain ⟨rfl, rfl⟩ := h
              rw [writesOf_append, hw0, List.nil_append, writesOf_finishEvents]
              unfold finishEvents
              split
              · exact Or.inl rfl
              · next hne =>
                exact Or.inr ⟨rfl, fun hcon => hne (by simp [hcon])⟩
            · -- full page: recurse
              split at h
              · exact absurd h (by simp)
              · next t2 evs2 hrec =>
                simp only [Option.some.injEq, Prod.mk.injEq] at h
                obtain ⟨rfl, rfl⟩ := h
                rw [writesOf_append, hw0, List.nil_append, writesOf_sleep]
                exact ih _ _ _ _ hrec
      · -- non-200 status
        simp only [Option.some.injEq, Prod.mk.injEq] at h
        obtain ⟨rfl, rfl⟩ := h
        rw [writesOf_append, hw0, List.nil_append, writesOf_finishEvents]
        unfold finishEvents
        split
        · exact Or.inl rfl
        · next hne =>
          exact Or.inr ⟨rfl, fun hcon => hne (by simp [hcon])⟩

/-- Unfolding of one page-loop iteration once the retry loop has produced a
response. -/
theorem fetchLoop_got (client : Client) (s e f : String) (n page : Nat)
    (acc : Table) (evs0 : List Event) (resp : Response)
    (hR : retryLoop client ⟨s, e, page, itemsPerPage⟩ maxRetries 0 = (evs0, .got resp)) :
    fetchLoop client s e f (n + 1) page acc =
      if resp.status = 200 then
        if resp.content.length ≤ 1 then some (acc, evs0 ++ finishEvents acc f)
        else
          if (parseCsv resp.content).rows.isEmpty then
            some (acc, evs0 ++ finishEvents acc f)
          else
            if (parseCsv resp.content).rows.length < itemsPerPage then
              some (acc.concat (parseCsv resp.content),
                evs0 ++ finishEvents (acc.concat (parseCsv resp.content)) f)
            else
              match fetchLoop client s e f n (page + 1) (acc.concat (parseCsv resp.content)) with
              | none => none
              | some (t, evs2) => some (t, evs0 ++ Event.sleep 2 :: evs2)
      else some (acc, evs0 ++ finishEvents acc f) := by
  simp only [fetchLoop, hR]

/-- When the first attempt of a page returns a response, the retry loop ends
at once with that single request in the trace. -/
theorem retryLoop_okFirst (client : Client) (p : Params) (resp : Response)
    (h : client p 0 = .ok resp) :
    retryLoop client p maxRetries 0 = ([.request p 0], .got resp) := by
  show retryLoop client p 5 0 = _
  rw [retryLoop, h]

/-- `finishEvents` contains no request events. -/
theorem request_not_mem_finishEvents (acc : Table) (f : String) (q : Params) (rc : Nat) :
    Event.request q rc ∉ finishEvents acc f := by
  unfold finishEvents
  split <;> simp

/-- One page-loop iteration on a 200 response. -/
theorem fetchLoop_got200 (client : Client) (s e f : String) (n page : Nat)
    (acc : Table) (evs0 : List Event) (body : List String)
    (hR : retryLoop client ⟨s, e, page, itemsPerPage⟩ maxRetries 0 = (evs0, .got ⟨200, body⟩)) :
    fetchLoop client s e f (n + 1) page acc =
      if body.length ≤ 1 then some (acc, evs0 ++ finishEvents acc f)
      else
        if (parseCsv body).rows.isEmpty then some (acc, evs0 ++ finishEvents acc f)
        else
          if (parseCsv body).rows.length < itemsPerPage then
            some (acc.concat (parseCsv body),
              evs0 ++ finishEvents (acc.concat (parseCsv body)) f)
          else
            match fetchLoop client s e f n (page + 1) (acc.concat (parseCsv body)) with
            | none => none
            | some (t, evs2) => some (t, evs0 ++ Event.sleep 2 :: evs2) := by
  rw [fetchLoop_got client s e f n page acc evs0 ⟨200, body⟩ hR, if_pos rfl]

/-- One page-loop iteration on a non-200 response: stop, returning the
accumulated table (then the finish block decides the write). -/
theorem fetchLoop_got_non200 (client : Client) (s e f : String) (n page : Nat)
    (acc : Table) (evs0 : List Event) (resp : Response)
    (hR : retryLoop client ⟨s, e, page, itemsPerPage⟩ maxRetries 0 = (evs0, .got resp))
    (hs : resp.status ≠ 200) :
    fetchLoop client s e f (n + 1) page acc = some (acc, evs0 ++ finishEvents acc f) := by
  rw [fetchLoop_got client s e f n page acc evs0 resp hR, if_neg hs]

theorem writesOf_req_finish (p : Params) (rc : Nat) (acc : Table) (f : String) :
    writesOf ([Event.request p rc] ++ finishEvents acc f) =
      (if acc.rows.isEmpty then ([] : List Event) else [Event.write f acc]) := by
  rw [writesOf_append, show writesOf [Event.request p rc] = [] from rfl,
    List.nil_append, writesOf_finishEvents]
  rfl

/-- Rows contributed by the terminal page of a pagination run: nothing for a
header-only body, otherwise its parsed rows. -/
def finalCount (lines : List String) : Nat :=
  if lines.length ≤ 1 then 0 else (parseCsv lines).rows.length

/-- Pagination behaviour of the page loop against a service that answers every
request with status 200 and the body belonging to the requested page number:
if pages `c, …, c+m-1` parse to exactly `items_per_page` rows each and page
`c+m` is terminal (header-only, empty, or short), the loop requests exactly
the pages up to `c+m`, returns all their rows appended to the accumulator, and
the trace holds the single finishing write exactly when the result has rows. -/
theorem fetchLoop_full_pages (bodies : Nat → List String) (client : Client)
    (s e f : String)
    (hclient : ∀ p i, client p i = .ok ⟨200, bodies p.pagina⟩) :
    ∀ m c acc fuel, m < fuel →
      (∀ j, c ≤ j → j < c + m → (parseCsv (bodies j)).rows.length = itemsPerPage) →
      ((bodies (c + m)).length ≤ 1 ∨ (parseCsv (bodies (c + m))).rows.length < itemsPerPage) →
      ∃ t evs, fetchLoop client s e f fuel c acc = some (t, evs) ∧
        t.rows.length = acc.rows.length + itemsPerPage * m + finalCount (bodies (c + m)) ∧
        (∀ q rc, Event.request q rc ∈ evs → c ≤ q.pagina ∧ q.pagina ≤ c + m) ∧
        writesOf evs = (if t.rows.isEmpty then ([] : List Event) else [Event.write f t]) := by
  intro m
  induction m with
  | zero =>
    intro c acc fuel hfuel hfull hshort
    obtain ⟨n, rfl⟩ : ∃ n, fuel = n + 1 := ⟨fuel - 1, by omega⟩
    have hR := retryLoop_okFirst client ⟨s, e, c, itemsPerPage⟩ ⟨200, bodies c⟩ (hclient _ 0)
    rw [Nat.add_zero] at hshort
    rw [fetchLoop_got200 client s e f n c acc _ (bodies c) hR]
    have hmem1 : ∀ (acc' : Table) q rc,
        Event.request q rc ∈ [Event.request (⟨s, e, c, itemsPerPage⟩ : Params) 0]
          ++ finishEvents acc' f → c ≤ q.pagina ∧ q.pagina ≤ c + 0 := by
      intro acc' q rc hmem
      rcases List.mem_append.mp hmem with hmem | hmem
      · rw [List.mem_singleton] at hmem
        rcases Event.request.injEq .. |>.mp hmem with ⟨rfl, -⟩
        exact ⟨Nat.le_refl c, Nat.le_add_right c 0⟩
      · exact absurd hmem (request_not_mem_finishEvents _ _ _ _)
    by_cases hlen : (bodies c).length ≤ 1
    · rw [if_pos hlen]
      refine ⟨acc, _, rfl, ?_, hmem1 acc, writesOf_req_finish _ _ _ _⟩
      simp [finalCount, hlen]
    · rw [if_neg hlen]
      have hshort' : (parseCsv (bodies c)).rows.length < itemsPerPage := by
        rcases hshort with h | h
        · exact absurd h hlen
        · exact h
      by_cases hemp : (parseCsv (bodies c)).rows.isEmpty
      · rw [if_pos hemp]
        refine ⟨acc, _, rfl, ?_, hmem1 acc, writesOf_req_finish _ _ _ _⟩
        have h0 : (parseCsv (bodies c)).rows = [] := List.isEmpty_iff.mp hemp
        simp [finalCount, hlen, h0]
      · rw [if_neg hemp, if_pos hshort']
        refine ⟨acc.concat (parseCsv (bodies c)), _, rfl, ?_,
          hmem1 _, writesOf_req_finish _ _ _ _⟩
        rw [Table.concat_rows, List.length_append]
        simp [finalCount, hlen]
  | succ m ih =>
    intro c acc fuel hfuel hfull hshort
    obtain ⟨n, rfl⟩ : ∃ n, fuel = n + 1 := ⟨fuel - 1, by omega⟩
    have hR := retryLoop_okFirst client ⟨s, e, c, itemsPerPage⟩ ⟨200, bodies c⟩ (hclient _ 0)
    rw [fetchLoop_got200 client s e f n c acc _ (bodies c) hR]
    have hfullc : (parseCsv (bodies c)).rows.length = itemsPerPage :=
      hfull c (Nat.le_refl c) (by omega)
    have hlen : ¬(bodies c).length ≤ 1 := by
      have := parseCsv_rows_le (bodies c)
      rw [hfullc] at this
      simp only [itemsPerPage] at this
      omega
    have hemp : ¬(parseCsv (bodies c)).rows.isEmpty := by
      intro hcon
      have h0 : (parseCsv (bodies c)).rows = [] := List.isEmpty_iff.mp hcon
      rw [h0] at hfullc
      simp [itemsPerPage] at hfullc
    have hnshort : ¬(parseCsv (bodies c)).rows.length < itemsPerPage := by
      rw [hfullc]
      omega
    rw [if_neg hlen, if_neg hemp, if_neg hnshort]
    have hcm : c + (m + 1) = c + 1 + m := by omega
    obtain ⟨t, evs2, hrec, hcount, hreq, hwr⟩ :=
      ih (c + 1) (acc.concat (parseCsv (bodies c))) n (by omega)
        (fun j hj1 hj2 => hfull j (by omega) (by omega))
        (by rw [hcm] at hshort; exact hshort)
    rw [hrec]
    refine ⟨t, _, rfl, ?_, ?_, ?_⟩
    · rw [hcount, Table.concat_rows, List.length_append, hfullc, hcm]
      ring
    · intro q rc hmem
      rcases List.mem_append.mp hmem with hmem | hmem
      · rw [List.mem_singleton] at hmem
        rcases Event.request.injEq .. |>.mp hmem with ⟨rfl, -⟩
        exact ⟨Nat.le_refl c, Nat.le_add_right c (m + 1)⟩
      · rcases List.mem_cons.mp hmem with hmem | hmem
        · exact absurd hmem (by simp)
        · have := hreq q rc hmem
          omega
    · rw [writesOf_append, show writesOf [Event.request (⟨s, e, c, itemsPerPage⟩ : Params) 0] = []
        from rfl, List.nil_append, writesOf_sleep, hwr]

/-! ### Data-frame column lemmas -/

theorem find_map_same (name : String) (col : List Cell) :
    ∀ l : List (String × List Cell), l.any (·.1 == name) = true →
      (l.map fun pr => if pr.1 == name then (name, col) else pr).find? (·.1 == name) =
        some (name, col) := by
  intro l
  induction l with
  | nil => simp
  | cons hd tl ih =>
    intro h
    by_cases hh : (hd.1 == name) = true
    · simp [List.find?, hh]
    · rw [List.any_cons] at h
      rw [Bool.eq_false_iff.mpr hh, Bool.false_or] at h
      simp only [List.map_cons, if_neg hh, List.find?]
      rw [Bool.eq_false_iff.mpr hh]
      exact ih h

theorem find_map_other (name other : String) (col : List Cell)
    (hbn : (name == other) = false) :
    ∀ l : List (String × List Cell),
      (l.map fun pr => if pr.1 == name then (name, col) else pr).find? (·.1 == other) =
        l.find? (·.1 == other) := by
  intro l
  induction l with
  | nil => simp
  | cons hd tl ih =>
    by_cases hh : (hd.1 == name) = true
    · have hh' : (hd.1 == other) = false := by
        have he : hd.1 = name := by simpa using hh
        rw [he]
        exact hbn
      simp only [List.map_cons, if_pos hh, List.find?]
      rw [hbn, hh']
      exact ih
    · simp only [List.map_cons, if_neg hh, List.find?]
      by_cases ho : (hd.1 == other) = true
      · rw [ho]
      · rw [Bool.eq_false_iff.mpr ho]
        exact ih

theorem DataFrame.getCol_setCol_same (df : DataFrame) (name : String) (col : List Cell) :
    (df.setCol name col).getCol name = some col := by
  unfold DataFrame.setCol
  split
  · next h =>
    unfold DataFrame.hasCol at h
    unfold DataFrame.getCol
    rw [find_map_same name col df.cols h]
    rfl
  · unfold DataFrame.getCol
    simp only [List.find?_append]
    next h =>
    unfold DataFrame.hasCol at h
    have hnone : df.cols.find? (·.1 == name) = none :=
      List.find?_eq_none.mpr (fun x hx hpx =>
        (Bool.eq_false_iff.mp (Bool.eq_false_iff.mpr h)) (List.any_eq_true.mpr ⟨x, hx, hpx⟩))
    rw [hnone]
    simp [List.find?]

theorem DataFrame.getCol_setCol_other (df : DataFrame) (name other : String)
    (col : List Cell) (hne : other ≠ name) :
    (df.setCol name col).getCol other = df.getCol other := by
  have hbn : (name == other) = false := beq_eq_false_iff_ne.mpr (fun hcon => hne hcon.symm)
  unfold DataFrame.setCol
  split
  · unfold DataFrame.getCol
    rw [find_map_other name other col hbn df.cols]
  · unfold DataFrame.getCol
    simp only [List.find?_append]
    have h2 : ([(name, col)].find? (·.1 == other)) = none := by
      simp [List.find?, hbn]
    rw [h2]
    cases df.cols.find? (·.1 == other) <;> rfl

/-- The full cell pipeline applied to one raw date cell: parse with coercion,
localize to `Europe/Madrid`, read off the weekday. -/
def weekdayPipeline (c : Cell) : Option Nat :=
  weekday_cell (tz_localize_cell bilbao_tz (to_datetime_cell c))

/-- The full cell pipeline for the date column itself: parse with coercion,
localize, then strip the timezone back off. -/
def datePipeline (c : Cell) : DtCell :=
  tz_strip_cell (tz_localize_cell bilbao_tz (to_datetime_cell c))

/-- Column-level characterization of the weekday-annotation step when the
`'Fecha/Hora medicion'` column is present. -/
theorem agregar_cols_fecha1 (df : DataFrame) (raw : List Cell)
    (h1 : df.hasCol "Fecha/Hora medicion" = true)
    (hraw : df.getCol "Fecha/Hora medicion" = some raw) :
    (agregar_dia_semana_numerico df).getCol "week_day" =
      some (raw.map fun c => Cell.num (weekdayPipeline c)) ∧
    (agregar_dia_semana_numerico df).getCol "Fecha/Hora medicion" =
      some (raw.map fun c => Cell.dt (datePipeline c)) := by
  unfold agregar_dia_semana_numerico
  simp only [h1, if_true, hraw, Option.getD_some]
  constructor
  · rw [DataFrame.getCol_setCol_other _ _ _ _ (by decide),
      DataFrame.getCol_setCol_same]
    simp [List.map_map, Function.comp_def, weekdayPipeline]
  · rw [DataFrame.getCol_setCol_same]
    simp [List.map_map, Function.comp_def, datePipeline]

/-- Column-level characterization of the weekday-annotation step when only the
`'fecha_medicion'` column is present. -/
theorem agregar_cols_fecha2 (df : DataFrame) (raw : List Cell)
    (h0 : df.hasCol "Fecha/Hora medicion" = false)
    (h1 : df.hasCol "fecha_medicion" = true)
    (hraw : df.getCol "fecha_medicion" = some raw) :
    (agregar_dia_semana_numerico df).getCol "week_day" =
      some (raw.map fun c => Cell.num (weekdayPipeline c)) ∧
    (agregar_dia_semana_numerico df).getCol "fecha_medicion" =
      some (raw.map fun c => Cell.dt (datePipeline c)) := by
  unfold agregar_dia_semana_numerico
  simp only [h0, h1, if_true, if_false, Bool.false_eq_true, hraw, Option.getD_some]
  constructor
  · rw [DataFrame.getCol_setCol_other _ _ _ _ (by decide),
      DataFrame.getCol_setCol_same]
    simp [List.map_map, Function.comp_def, weekdayPipeline]
  · rw [DataFrame.getCol_setCol_same]
    simp [List.map_map, Function.comp_def, datePipeline]

/-- The weekday-annotation step is the identity when neither recognized date
column is present. -/
theorem agregar_no_date_col (df : DataFrame)
    (h0 : df.hasCol "Fecha/Hora medicion" = false)
    (h1 : df.hasCol "fecha_medicion" = false) :
    agregar_dia_semana_numerico df = df := by
  unfold agregar_dia_semana_numerico
  simp only [h0, h1, Bool.false_eq_true, if_false]

/-- Any returned trace of one page-loop iteration starts with the trace of the
retry loop run for that page. -/
theorem fetchLoop_trace_prefix (client : Client) (s e f : String)
    (fuel page : Nat) (acc t : Table) (evs : List Event)
    (h : fetchLoop client s e f (fuel + 1) page acc = some (t, evs)) :
    ∃ rest, evs = (retryLoop client ⟨s, e, page, itemsPerPage⟩ maxRetries 0).1 ++ rest := by
  simp only [fetchLoop] at h
  split at h
  case _ evs0 heq =>
    simp only [Option.some.injEq, Prod.mk.injEq] at h
    obtain ⟨rfl, rfl⟩ := h
    exact ⟨[], by rw [heq, List.append_nil]⟩
  case _ evs0 heq =>
    simp only [Option.some.injEq, Prod.mk.injEq] at h
    obtain ⟨rfl, rfl⟩ := h
    exact ⟨_, by rw [heq]⟩
  case _ evs0 resp heq =>
    split at h
    · split at h
      · simp only [Option.some.injEq, Prod.mk.injEq] at h
        obtain ⟨rfl, rfl⟩ := h
        exact ⟨_, by rw [heq]⟩
      · split at h
        · simp only [Option.some.injEq, Prod.mk.injEq] at h
          obtain ⟨rfl, rfl⟩ := h
          exact ⟨_, by rw [heq]⟩
        · split at h
          · simp only [Option.some.injEq, Prod.mk.injEq] at h
            obtain ⟨rfl, rfl⟩ := h
            exact ⟨_, by rw [heq]⟩
          · split at h
            · exact absurd h (by simp)
            · simp only [Option.some.injEq, Prod.mk.injEq] at h
              obtain ⟨rfl, rfl⟩ := h
              exact ⟨_, by rw [heq]⟩
    · simp only [Option.some.injEq, Prod.mk.injEq] at h
      obtain ⟨rfl, rfl⟩ := h
      exact ⟨_, by rw [heq]⟩

/-! ## Claim theorems -/

/-- C2: for every page request of the bulk fetch, connection-level or timeout
failures are retried up to the fixed maximum of 5 attempts with linear
backoff: for a client that fails with a connection error exactly `k < 5` times
on a page and then succeeds, the retry loop for that page ends with the
response, issues exactly `k + 1` requests, and its waits are
`5·1, 5·2, …, 5·k` seconds — the wait before retry number `n` is `n × 5`, a
strictly increasing sequence.  Every returned run of the page loop starts with
exactly this retry-loop trace for its first page. -/
theorem C2_retry_backoff (client : Client) (p : Params) (resp : Response) (k : Nat)
    (hk : k < maxRetries)
    (hfail : ∀ i, i < k → client p i = .connError)
    (hsucc : client p k = .ok resp) :
    retryLoop client p maxRetries 0 = (retryEvents p 0 k, .got resp) ∧
    (requestsOf (retryEvents p 0 k)).length = k + 1 ∧
    sleepsOf (retryEvents p 0 k) = (List.range k).map (fun n => 5 * (n + 1)) ∧
    List.Chain' (· < ·) (sleepsOf (retryEvents p 0 k)) ∧
    (∀ (s e f : String) (fuel page : Nat) (acc t : Table) (evs : List Event),
      fetchLoop client s e f (fuel + 1) page acc = some (t, evs) →
      ∃ rest, evs = (retryLoop client ⟨s, e, page, itemsPerPage⟩ maxRetries 0).1 ++ rest) := by
  refine ⟨?_, retryEvents_requests p k 0, ?_, retryEvents_sleeps_chain p k 0,
    fun s e f fuel page acc t evs h => fetchLoop_trace_prefix client s e f fuel page acc t evs h⟩
  · exact retryLoop_spec client p resp k 0 maxRetries
      (by rw [Nat.zero_add]; exact hk) hk
      (fun i _ h2 => hfail i (by omega))
      (by rw [Nat.zero_add]; exact hsucc)
  · rw [retryEvents_sleeps p k 0]
    apply List.map_congr_left
    intro i _
    omega

/-- The mocked client of C2's witness: connection errors on the first two
attempts, then a response. -/
def clientC2w : Client := fun _ i =>
  if i < 2 then .connError else .ok ⟨200, ["h", "r"]⟩

/-- The page parameters used by C2's and C3's witnesses. -/
def pW : Params := ⟨"20250401", "20250405", 1, itemsPerPage⟩

/-- Witness for C2 at `k = 2`: three requests, waits `[5, 10]`, strictly
increasing. -/
theorem C2_retry_backoff_witness :
    retryLoop clientC2w pW maxRetries 0 = (retryEvents pW 0 2, .got ⟨200, ["h", "r"]⟩) ∧
    (requestsOf (retryEvents pW 0 2)).length = 3 ∧
    sleepsOf (retryEvents pW 0 2) = [5, 10] ∧
    List.Chain' (· < ·) (sleepsOf (retryEvents pW 0 2)) := by
  obtain ⟨h1, h2, h3, h4, -⟩ := C2_retry_backoff clientC2w pW ⟨200, ["h", "r"]⟩ 2
    (by decide) (by decide) (by decide)
  exact ⟨h1, h2, by rw [h3]; rfl, h4⟩

/-- C3: for a client whose requests on a page always fail with
connection-level/timeout errors, the page loop ends after the 5 failed
attempts of that page, returning exactly the table accumulated before it
(possibly empty) — a `some` result, never an exception — and writes no file. -/
theorem C3_retry_exhaustion (client : Client) (s e f : String)
    (page fuel : Nat) (acc : Table)
    (hfail : ∀ i, i < maxRetries → client ⟨s, e, page, itemsPerPage⟩ i = .connError) :
    fetchLoop client s e f (fuel + 1) page acc =
      some (acc, failEvents ⟨s, e, page, itemsPerPage⟩) ∧
    writesOf (failEvents ⟨s, e, page, itemsPerPage⟩) = [] ∧
    (requestsOf (failEvents ⟨s, e, page, itemsPerPage⟩)).length = maxRetries := by
  have hR := retryLoop_allFail client ⟨s, e, page, itemsPerPage⟩ hfail
  refine ⟨?_, rfl, rfl⟩
  simp only [fetchLoop, hR]

/-- The always-failing client of C3's witness. -/
def clientC3w : Client := fun _ _ => .connError

/-- Witness for C3: the whole fetch returns the empty initial table after the
five failed attempts of page 1, without writing. -/
theorem C3_retry_exhaustion_witness :
    fetchLoop clientC3w "20250401" "20250405" "out.csv" 1 1 Table.initial =
      some (Table.initial, failEvents pW) ∧
    writesOf (failEvents pW) = [] := by
  obtain ⟨h1, h2, -⟩ := C3_retry_exhaustion clientC3w "20250401" "20250405" "out.csv" 1 0
    Table.initial (by intro i _; rfl)
  exact ⟨h1, h2⟩

/-- C4: against a service that answers every page request with status 200 and
the body of the requested page, where pages `1, …, m` parse to exactly
`items_per_page` rows and page `m + 1` is terminal — header-only (no rows
added), zero parsed rows (none added), or a short page (appended before
stopping) — the bulk fetch returns a table whose row count is the sum of all
page sizes (`items_per_page · m` plus the terminal page's contribution) and
requests no page beyond `m + 1`. -/
theorem C4_pagination (bodies : Nat → List String) (client : Client)
    (s e f : String) (m fuel : Nat)
    (hclient : ∀ p i, client p i = .ok ⟨200, bodies p.pagina⟩)
    (hfuel : m < fuel)
    (hfull : ∀ j, 1 ≤ j → j < 1 + m → (parseCsv (bodies j)).rows.length = itemsPerPage)
    (hlast : (bodies (1 + m)).length ≤ 1 ∨
      (parseCsv (bodies (1 + m))).rows.length < itemsPerPage) :
    ∃ t evs, obtener_datos_sonometros_bilbao client s e f fuel = some (t, evs) ∧
      t.rows.length = itemsPerPage * m + finalCount (bodies (1 + m)) ∧
      (∀ q rc, Event.request q rc ∈ evs → 1 ≤ q.pagina ∧ q.pagina ≤ 1 + m) := by
  obtain ⟨t, evs, h1, h2, h3, -⟩ :=
    fetchLoop_full_pages bodies client s e f hclient m 1 Table.initial fuel hfuel hfull hlast
  exact ⟨t, evs, h1, by simpa [Table.initial] using h2, h3⟩

/-- The page bodies of C4's witness: a full page of 1000 rows, then a short
page of one row. -/
def bodiesC4w : Nat → List String := fun j =>
  if j = 1 then "h" :: List.replicate 1000 "r"
  else if j = 2 then ["h", "r1;x"]
  else []

/-- The mocked service of C4's witness. -/
def clientC4w : Client := fun p _ => .ok ⟨200, bodiesC4w p.pagina⟩

/-- A body of a header line and 1000 `"r"` lines parses to 1000 one-cell rows. -/
theorem parseCsv_full_page :
    (parseCsv ("h" :: List.replicate 1000 "r")).rows = List.replicate 1000 ["r"] := by
  simp only [parseCsv]
  rw [List.filter_replicate]
  rw [if_pos (by decide : (("r" : String) != "") = true)]
  rw [List.map_replicate, show splitSep ';' "r" = ["r"] from by decide]

/-- The full page of C4's witness parses to 1000 rows. -/
theorem bodiesC4w_page1 :
    (parseCsv (bodiesC4w 1)).rows = List.replicate 1000 ["r"] := by
  show (parseCsv ("h" :: List.replicate 1000 "r")).rows = _
  exact parseCsv_full_page

/-- Witness for C4 with one full page (1000 rows) and a short final page
(1 row): the returned table has 1001 rows. -/
theorem C4_pagination_witness :
    ∃ t evs, obtener_datos_sonometros_bilbao clientC4w "20250401" "20250405" "out.csv" 2 =
      some (t, evs) ∧ t.rows.length = 1001 ∧
      (∀ q rc, Event.request q rc ∈ evs → 1 ≤ q.pagina ∧ q.pagina ≤ 2) := by
  obtain ⟨t, evs, h1, h2, h3⟩ :=
    C4_pagination bodiesC4w clientC4w "20250401" "20250405" "out.csv" 1 2
      (fun p i => rfl) (by decide)
      (by
        intro j hj1 hj2
        have hj : j = 1 := by omega
        subst hj
        rw [bodiesC4w_page1, List.length_replicate]
        rfl)
      (Or.inr (by decide))
  refine ⟨t, evs, h1, ?_, fun q rc hq => h3 q rc hq⟩
  rw [h2]
  decide

/-- C1 (amended): a run of the bulk fetch writes at most one file — when it
writes, the file carries the full returned table (header and rows, no index
column) and the table is non-empty; a run whose page loop ends with a
page-level stop writes exactly one file if data was accumulated and none
otherwise; but a run that ends by exhausting the retry budget writes **zero**
files even when data was already accumulated, because the exhaustion path
returns from inside the loop without reaching the write block. -/
theorem C1_persistence :
    (∀ (client : Client) (s e f : String) (fuel page : Nat) (acc t : Table)
      (evs : List Event),
      fetchLoop client s e f fuel page acc = some (t, evs) →
      writesOf evs = [] ∨ (writesOf evs = [Event.write f t] ∧ t.rows ≠ [])) ∧
    (∀ (bodies : Nat → List String) (client : Client) (s e f : String) (m fuel : Nat),
      (∀ p i, client p i = .ok ⟨200, bodies p.pagina⟩) → m < fuel →
      (∀ j, 1 ≤ j → j < 1 + m → (parseCsv (bodies j)).rows.length = itemsPerPage) →
      ((bodies (1 + m)).length ≤ 1 ∨ (parseCsv (bodies (1 + m))).rows.length < itemsPerPage) →
      ∃ t evs, obtener_datos_sonometros_bilbao client s e f fuel = some (t, evs) ∧
        writesOf evs = (if t.rows.isEmpty then ([] : List Event) else [Event.write f t])) ∧
    (∀ (client : Client) (s e f : String) (page fuel : Nat) (acc : Table),
      (∀ i, i < maxRetries → client ⟨s, e, page, itemsPerPage⟩ i = .connError) →
      fetchLoop client s e f (fuel + 1) page acc =
        some (acc, failEvents ⟨s, e, page, itemsPerPage⟩) ∧
      writesOf (failEvents ⟨s, e, page, itemsPerPage⟩) = []) := by
  refine ⟨fun client s e f fuel page acc t evs h =>
      fetchLoop_writes client s e f fuel page acc t evs h, ?_, ?_⟩
  · intro bodies client s e f m fuel hclient hfuel hfull hlast
    obtain ⟨t, evs, h1, -, -, h4⟩ :=
      fetchLoop_full_pages bodies client s e f hclient m 1 Table.initial fuel hfuel hfull hlast
    exact ⟨t, evs, h1, h4⟩
  · intro client s e f page fuel acc hfail
    have hR := retryLoop_allFail client ⟨s, e, page, itemsPerPage⟩ hfail
    refine ⟨?_, rfl⟩
    simp only [fetchLoop, hR]

/-- The always-failing client of C1's witness. -/
def clientC1w : Client := fun _ _ => .connError

/-- Witness for C1: a retry-exhausted run returns its accumulator and its
trace holds no write. -/
theorem C1_persistence_witness :
    ∃ evs, fetchLoop clientC1w "20250401" "20250405" "out.csv" 1 1 Table.initial =
      some (Table.initial, evs) ∧ writesOf evs = [] := by
  obtain ⟨h1, h2⟩ := C1_persistence.2.2 clientC1w "20250401" "20250405" "out.csv" 1 0
    Table.initial (fun i _ => rfl)
  exact ⟨_, h1, h2⟩

/-- The client of C1's counterexample: page 1 responds with a full page of
1000 rows, every other page fails with connection errors on every attempt. -/
def clientC1x : Client := fun p _ =>
  if p.pagina = 1 then .ok ⟨200, "h" :: List.replicate 1000 "r"⟩ else .connError

/-- C1 counterexample: this run retrieves 1000 rows on page 1, then exhausts
the retry budget on page 2 — it returns a non-empty table yet writes zero
files, refuting "exactly one file is written when any data was retrieved …
including runs that end by exhausting the retry budget with data already
accumulated". -/
theorem C1_counterexample :
    obtener_datos_sonometros_bilbao clientC1x "20250401" "20250405" "out.csv" 2 =
      some (⟨["h"], List.replicate 1000 ["r"]⟩,
        Event.request ⟨"20250401", "20250405", 1, itemsPerPage⟩ 0 :: Event.sleep 2 ::
          failEvents ⟨"20250401", "20250405", 2, itemsPerPage⟩) ∧
    List.replicate 1000 (["r"] : List String) ≠ [] ∧
    writesOf (Event.request ⟨"20250401", "20250405", 1, itemsPerPage⟩ 0 :: Event.sleep 2 ::
      failEvents ⟨"20250401", "20250405", 2, itemsPerPage⟩) = [] := by
  have hR1 : retryLoop clientC1x ⟨"20250401", "20250405", 1, itemsPerPage⟩ maxRetries 0 =
      ([.request ⟨"20250401", "20250405", 1, itemsPerPage⟩ 0],
        .got ⟨200, "h" :: List.replicate 1000 "r"⟩) :=
    retryLoop_okFirst clientC1x ⟨"20250401", "20250405", 1, itemsPerPage⟩
      ⟨200, "h" :: List.replicate 1000 "r"⟩ rfl
  have hlen : ¬(("h" :: List.replicate 1000 "r").length ≤ 1) := by
    rw [List.length_cons, List.length_replicate]
    omega
  have hemp : ¬((parseCsv ("h" :: List.replicate 1000 "r")).rows.isEmpty = true) := by
    rw [parseCsv_full_page]
    decide
  have hshort : ¬((parseCsv ("h" :: List.replicate 1000 "r")).rows.length < itemsPerPage) := by
    rw [parseCsv_full_page, List.length_replicate]
    decide
  have hacc2 : Table.initial.concat (parseCsv ("h" :: List.replicate 1000 "r")) =
      ⟨["h"], List.replicate 1000 ["r"]⟩ := by
    unfold Table.concat
    rw [if_pos (show
      (Table.initial.header.isEmpty && Table.initial.rows.isEmpty) = true by decide)]
    rw [Table.mk.injEq]
    exact ⟨by decide, parseCsv_full_page⟩
  have h2 : fetchLoop clientC1x "20250401" "20250405" "out.csv" 1 2
      (⟨["h"], List.replicate 1000 ["r"]⟩ : Table) =
      some (⟨["h"], List.replicate 1000 ["r"]⟩,
        failEvents ⟨"20250401", "20250405", 2, itemsPerPage⟩) := by
    have hR2 := retryLoop_allFail clientC1x ⟨"20250401", "20250405", 2, itemsPerPage⟩
      (fun i _ => rfl)
    show fetchLoop clientC1x "20250401" "20250405" "out.csv" (0 + 1) 2 _ = _
    simp only [fetchLoop, hR2]
  refine ⟨?_, by decide, rfl⟩
  unfold obtener_datos_sonometros_bilbao
  show fetchLoop clientC1x "20250401" "20250405" "out.csv" (1 + 1) 1 Table.initial = _
  rw [fetchLoop_got200 clientC1x "20250401" "20250405" "out.csv" 1 1 Table.initial _ _ hR1]
  rw [if_neg hlen, if_neg hemp, if_neg hshort, hacc2]
  rw [show (1 : Nat) + 1 = 2 from rfl]
  rw [h2]
  rfl

/-- C7 (amended): the response body is parsed as semicolon-delimited tabular
data if and only if the status code is exactly 200 (not any 2xx): on a
non-200 status — even 201 — the loop stops and returns the accumulated data
untouched by the body; on a 200 status with a body of more than one line and
a non-empty short parsed page, exactly the semicolon-parsed rows of the body
are appended. -/
theorem C7_status_gate :
    (∀ (client : Client) (s e f : String) (n page : Nat) (acc : Table)
      (evs0 : List Event) (resp : Response),
      retryLoop client ⟨s, e, page, itemsPerPage⟩ maxRetries 0 = (evs0, .got resp) →
      resp.status ≠ 200 →
      fetchLoop client s e f (n + 1) page acc = some (acc, evs0 ++ finishEvents acc f)) ∧
    (∀ (client : Client) (s e f : String) (n page : Nat) (acc : Table)
      (evs0 : List Event) (body : List String),
      retryLoop client ⟨s, e, page, itemsPerPage⟩ maxRetries 0 = (evs0, .got ⟨200, body⟩) →
      ¬body.length ≤ 1 →
      (parseCsv body).rows.isEmpty = false →
      (parseCsv body).rows.length < itemsPerPage →
      fetchLoop client s e f (n + 1) page acc =
        some (acc.concat (parseCsv body),
          evs0 ++ finishEvents (acc.concat (parseCsv body)) f) ∧
      (acc.concat (parseCsv body)).rows = acc.rows ++ (parseCsv body).rows) := by
  constructor
  · intro client s e f n page acc evs0 resp hR hs
    exact fetchLoop_got_non200 client s e f n page acc evs0 resp hR hs
  · intro client s e f n page acc evs0 body hR hlen hemp hshort
    refine ⟨?_, Table.concat_rows _ _⟩
    rw [fetchLoop_got200 client s e f n page acc evs0 body hR, if_neg hlen,
      if_neg (by simp [hemp]), if_pos hshort]

/-- The client of C7's witness non-200 branch: always responds with status 500. -/
def client500w : Client := fun _ _ => .ok ⟨500, ["h", "a"]⟩

/-- The client of C7's witness 200 branch: one short page. -/
def client200w : Client := fun _ _ => .ok ⟨200, ["h", "a;b"]⟩

/-- Witness for C7: a 500 response stops the loop with nothing parsed, while
a 200 response with a one-row body yields exactly that semicolon-split row. -/
theorem C7_status_gate_witness :
    fetchLoop client500w "20250401" "20250405" "out.csv" 1 1 Table.initial =
      some (Table.initial, [Event.request ⟨"20250401", "20250405", 1, itemsPerPage⟩ 0]) ∧
    (∃ t evs, fetchLoop client200w "20250401" "20250405" "out.csv" 1 1 Table.initial =
      some (t, evs) ∧ t.rows = [["a", "b"]]) := by
  constructor
  · have h := C7_status_gate.1 client500w "20250401" "20250405" "out.csv" 0 1 Table.initial
      [Event.request ⟨"20250401", "20250405", 1, itemsPerPage⟩ 0] ⟨500, ["h", "a"]⟩
      (retryLoop_okFirst client500w _ _ rfl) (by decide)
    exact h
  · have h := C7_status_gate.2 client200w "20250401" "20250405" "out.csv" 0 1 Table.initial
      [Event.request ⟨"20250401", "20250405", 1, itemsPerPage⟩ 0] ["h", "a;b"]
      (retryLoop_okFirst client200w _ _ rfl) (by decide) (by decide) (by decide)
    refine ⟨_, _, h.1, ?_⟩
    rw [h.2]
    decide

/-- The client of C7's counterexample: always responds with status 201 (a 2xx)
and a body holding one data row. -/
def client201x : Client := fun _ _ => .ok ⟨201, ["h", "a;b"]⟩

/-- C7 counterexample: a 201 response is a 2xx status whose body parses to one
row, yet the fetch stops without parsing it and returns the empty table —
the code tests `status_code == 200`, not 2xx. -/
theorem C7_counterexample :
    (200 ≤ 201 ∧ 201 < 300) ∧
    (parseCsv ["h", "a;b"]).rows.length = 1 ∧
    obtener_datos_sonometros_bilbao client201x "20250401" "20250405" "out.csv" 1 =
      some (Table.initial, [Event.request ⟨"20250401", "20250405", 1, itemsPerPage⟩ 0]) ∧
    Table.initial.rows = [] := by
  refine ⟨by decide, by decide, ?_, rfl⟩
  have hR := retryLoop_okFirst client201x ⟨"20250401", "20250405", 1, itemsPerPage⟩
    ⟨201, ["h", "a;b"]⟩ rfl
  unfold obtener_datos_sonometros_bilbao
  show fetchLoop client201x "20250401" "20250405" "out.csv" (0 + 1) 1 Table.initial = _
  rw [fetchLoop_got_non200 client201x "20250401" "20250405" "out.csv" 0 1 Table.initial _ _
    hR (by decide)]
  rfl

/-- C5: with a recognized date column (`'Fecha/Hora medicion'` or
`'fecha_medicion'`), the weekday-annotation step derives the `week_day`
column by the parse-localize-weekday pipeline, whose encoding is
Monday = 0 … Sunday = 6 (the week 2025-04-07 Monday … 2025-04-13 Sunday maps
to 0 … 6, and the timestamp 2025-04-01T10:00:00, a Tuesday, yields 1); with
no recognized date column the table is returned unchanged. -/
theorem C5_weekday_annotation :
    (∀ df : DataFrame, df.hasCol "Fecha/Hora medicion" = false →
      df.hasCol "fecha_medicion" = false → agregar_dia_semana_numerico df = df) ∧
    (∀ (df : DataFrame) (raw : List Cell), df.hasCol "Fecha/Hora medicion" = false →
      df.hasCol "fecha_medicion" = true → df.getCol "fecha_medicion" = some raw →
      (agregar_dia_semana_numerico df).getCol "week_day" =
        some (raw.map fun c => Cell.num (weekdayPipeline c))) ∧
    (∀ (df : DataFrame) (raw : List Cell), df.hasCol "Fecha/Hora medicion" = true →
      df.getCol "Fecha/Hora medicion" = some raw →
      (agregar_dia_semana_numerico df).getCol "week_day" =
        some (raw.map fun c => Cell.num (weekdayPipeline c))) ∧
    weekdayPipeline (Cell.str "2025-04-01T10:00:00") = some 1 ∧
    (List.range 7).map (fun i => weekdayOfDate 2025 4 (7 + i)) = [0, 1, 2, 3, 4, 5, 6] := by
  exact ⟨fun df h0 h1 => agregar_no_date_col df h0 h1,
    fun df raw h0 h1 hraw => (agregar_cols_fecha2 df raw h0 h1 hraw).1,
    fun df raw h1 hraw => (agregar_cols_fecha1 df raw h1 hraw).1,
    by decide, by decide⟩

/-- The data frame of C5's witness: one `fecha_medicion` column holding the
example timestamp. -/
def dfC5w : DataFrame := ⟨[("fecha_medicion", [Cell.str "2025-04-01T10:00:00"])]⟩

/-- The data frame of C5's witness no-op branch: no recognized date column. -/
def dfC5w2 : DataFrame := ⟨[("decibelios", [Cell.str "50"])]⟩

/-- Witness for C5: the example row yields weekday 1 and a date-less table is
returned unchanged. -/
theorem C5_weekday_annotation_witness :
    (agregar_dia_semana_numerico dfC5w).getCol "week_day" = some [Cell.num (some 1)] ∧
    agregar_dia_semana_numerico dfC5w2 = dfC5w2 := by
  constructor
  · have h := C5_weekday_annotation.2.1 dfC5w [Cell.str "2025-04-01T10:00:00"]
      (by decide) (by decide) (by decide)
    rw [h]
    decide
  · exact C5_weekday_annotation.1 dfC5w2 (by decide) (by decide)

/-- C6: timestamps are localized to the fixed `Europe/Madrid` zone with
ambiguous or nonexistent wall times mapped to `NaT` rather than resolved to a
guessed offset (all other times keep their wall time and become aware), and
after the weekday column is derived the timezone is stripped back off the
same date column in place, leaving every cell timezone-naive. -/
theorem C6_tz_policy :
    (∀ t : Timestamp, isNonexistentMadrid t = true ∨ isAmbiguousMadrid t = true →
      tz_localize_cell bilbao_tz (.naive t) = .NaT) ∧
    (∀ t : Timestamp, isNonexistentMadrid t = false → isAmbiguousMadrid t = false →
      tz_localize_cell bilbao_tz (.naive t) = .aware t bilbao_tz) ∧
    (∀ c : DtCell, (tz_strip_cell c).isAware = false) ∧
    (∀ (t : Timestamp) (z : String), tz_strip_cell (.aware t z) = .naive t) ∧
    (∀ (df : DataFrame) (raw : List Cell), df.hasCol "Fecha/Hora medicion" = true →
      df.getCol "Fecha/Hora medicion" = some raw →
      (agregar_dia_semana_numerico df).getCol "Fecha/Hora medicion" =
        some (raw.map fun c => Cell.dt (datePipeline c))) ∧
    (∀ (df : DataFrame) (raw : List Cell), df.hasCol "Fecha/Hora medicion" = false →
      df.hasCol "fecha_medicion" = true → df.getCol "fecha_medicion" = some raw →
      (agregar_dia_semana_numerico df).getCol "fecha_medicion" =
        some (raw.map fun c => Cell.dt (datePipeline c))) := by
  refine ⟨?_, ?_, ?_, fun t z => rfl, ?_, ?_⟩
  · intro t h
    rcases h with h | h <;> simp [tz_localize_cell, h]
  · intro t h1 h2
    simp [tz_localize_cell, h1, h2]
  · intro c
    cases c <;> rfl
  · exact fun df raw h1 hraw => (agregar_cols_fecha1 df raw h1 hraw).2
  · exact fun df raw h0 h1 hraw => (agregar_cols_fecha2 df raw h0 h1 hraw).2

/-- Witness for C6: 2025-03-30 02:30 (spring-forward gap) and
2025-10-26 02:30 (repeated hour) become `NaT`; a plain time becomes aware and
the strip restores the naive wall time. -/
theorem C6_tz_policy_witness :
    tz_localize_cell bilbao_tz (.naive ⟨2025, 3, 30, 2, 30, 0⟩) = .NaT ∧
    tz_localize_cell bilbao_tz (.naive ⟨2025, 10, 26, 2, 30, 0⟩) = .NaT ∧
    tz_localize_cell bilbao_tz (.naive ⟨2025, 4, 1, 10, 0, 0⟩) =
      .aware ⟨2025, 4, 1, 10, 0, 0⟩ bilbao_tz ∧
    tz_strip_cell (.aware ⟨2025, 4, 1, 10, 0, 0⟩ bilbao_tz) = .naive ⟨2025, 4, 1, 10, 0, 0⟩ := by
  exact ⟨C6_tz_policy.1 ⟨2025, 3, 30, 2, 30, 0⟩ (Or.inl (by decide)),
    C6_tz_policy.1 ⟨2025, 10, 26, 2, 30, 0⟩ (Or.inr (by decide)),
    C6_tz_policy.2.1 ⟨2025, 4, 1, 10, 0, 0⟩ (by decide) (by decide),
    C6_tz_policy.2.2.2.1 ⟨2025, 4, 1, 10, 0, 0⟩ bilbao_tz⟩

/-- C10: the weekday-annotation step is a total function — it never raises on
date values that fail to parse: under `errors='coerce'` such a cell becomes
`NaT` and the derived `week_day` cell for that row is the null value (`NaN`),
not an integer. -/
theorem C10_coerce_unparseable (df : DataFrame) (dc : String) (raw : List Cell)
    (i : Nat) (s : String)
    (hdc : df.hasCol "Fecha/Hora medicion" = true ∧ dc = "Fecha/Hora medicion" ∨
      df.hasCol "Fecha/Hora medicion" = false ∧ df.hasCol "fecha_medicion" = true ∧
        dc = "fecha_medicion")
    (hraw : df.getCol dc = some raw)
    (hcell : raw[i]? = some (Cell.str s))
    (hbad : parseTimestamp s = none) :
    ∃ wd, (agregar_dia_semana_numerico df).getCol "week_day" = some wd ∧
      wd[i]? = some (Cell.num none) := by
  have hw : (agregar_dia_semana_numerico df).getCol "week_day" =
      some (raw.map fun c => Cell.num (weekdayPipeline c)) := by
    rcases hdc with ⟨h1, rfl⟩ | ⟨h0, h1, rfl⟩
    · exact (agregar_cols_fecha1 df raw h1 hraw).1
    · exact (agregar_cols_fecha2 df raw h0 h1 hraw).1
  refine ⟨_, hw, ?_⟩
  rw [List.getElem?_map, hcell]
  simp [weekdayPipeline, to_datetime_cell, hbad, tz_localize_cell, weekday_cell]

/-- The data frame of C10's witness: a date column with an unparseable value. -/
def dfC10w : DataFrame := ⟨[("fecha_medicion", [Cell.str "garbage"])]⟩

/-- Witness for C10: the unparseable cell produces a null weekday. -/
theorem C10_coerce_unparseable_witness :
    ∃ wd, (agregar_dia_semana_numerico dfC10w).getCol "week_day" = some wd ∧
      wd[0]? = some (Cell.num none) := by
  exact C10_coerce_unparseable dfC10w "fecha_medicion" [Cell.str "garbage"] 0 "garbage"
    (Or.inr ⟨by decide, by decide, rfl⟩) (by decide) (by decide) (by decide)

/-- C8 (amended): both scripts run with no required command-line arguments,
but only `sonometers.py` honours an optional positional argument as the
output file name; `main` of `sonometers_data.py` never reads the argument
vector and always uses the hard-coded name
`bilbao_sonometers_data15.csv`. -/
theorem C8_cli_arguments :
    (∀ (prog a : String) (rest : List String),
      sonometers_output_file (prog :: a :: rest) = a) ∧
    (∀ prog : String, sonometers_output_file [prog] = sonometers_default_file) ∧
    sonometers_output_file [] = sonometers_default_file ∧
    (∀ argv : List String, sonometers_data_output_file argv = main_output_file) :=
  ⟨fun _ _ _ => rfl, fun _ => rfl, rfl, fun _ => rfl⟩

/-- C8 counterexample: passing `custom.csv` as the positional argument to the
measurement script does not override its output file name, refuting "in each
script a single optional positional argument overrides the output file
name". -/
theorem C8_counterexample :
    sonometers_data_output_file ["sonometers_data.py", "custom.csv"] =
      "bilbao_sonometers_data15.csv" ∧
    "bilbao_sonometers_data15.csv" ≠ "custom.csv" :=
  ⟨rfl, by decide⟩

/-- C9 (amended): the measurement-fetch sample driver invokes the fetcher
with `start_date = "20250401"` and `end_date = "20250405"`, a start date
*earlier* than its end date (the in-source comment asserting the opposite is
inaccurate about these values); the fetcher itself never validates ordering —
for any pair of date strings, inverted or not, the first event of a page's
retry loop is a request carrying exactly those strings as `desde`/`hasta`. -/
theorem C9_date_range :
    main_start_date = "20250401" ∧ main_end_date = "20250405" ∧
    (strToNat? main_start_date).getD 0 < (strToNat? main_end_date).getD 0 ∧
    (∀ (client : Client) (s e : String) (page left rc : Nat),
      (retryLoop client ⟨s, e, page, itemsPerPage⟩ (left + 1) rc).1.head? =
        some (.request ⟨s, e, page, itemsPerPage⟩ rc)) :=
  ⟨rfl, rfl, by decide,
    fun client s e page left rc => retryLoop_head client ⟨s, e, page, itemsPerPage⟩ left rc⟩

/-- C9 counterexample: the driver's start date `20250401` is not later than
its end date `20250405` — numerically it is strictly smaller — refuting
"invokes the fetcher with a start date later than its end date". -/
theorem C9_counterexample :
    main_start_date = "20250401" ∧ main_end_date = "20250405" ∧
    ¬((strToNat? main_end_date).getD 0 < (strToNat? main_start_date).getD 0) :=
  ⟨rfl, rfl, by decide⟩

end Sonometers


